import Mathlib

/-!
# ttdown: client scripts of the downloader and mailer front-ends

A shallow embedding of `src/ttdown/static/js/script.js`,
`src/ttdown/static/js/stories.js`, `src/static/js/mp.js` and
`src/static/js/mail.js`.

Conventions of the embedding.

* A JavaScript string is a `List Char`.  The string operations the scripts use
  (`match` with a non-unicode regular expression, `replace`, `trim`,
  concatenation) act the same on code points as on UTF-16 code units for
  well-formed strings; `length` counts UTF-16 code units and is modelled by
  `jsLength`.
* The DOM elements the scripts look up with `getElementById` are assumed to
  exist; an element is the record of the properties the scripts touch.
* An `async` handler is a function from the page and the outcome of each
  awaited network operation to the final page, the list of observable effects
  in order, and the way the returned promise settles.  `fetchThumbnail`, whose
  calls overlap when the user keeps typing, is split at its awaits: what happens
  on the page while a call is suspended is an explicit argument.
* Timers are a table of pending timeouts with integral millisecond deadlines;
  a timeout fires when the clock reaches its deadline.
-/

namespace TTDown

/-! ## Strings -/

/-- A JavaScript string. -/
abbrev JSString := List Char

/-- The `length` of a JavaScript string: its number of UTF-16 code units. -/
def jsLength (s : JSString) : Nat :=
  (s.map (fun c => if c.toNat < 65536 then 1 else 2)).sum

/-- Truthiness of a string: `""` is falsy, every other string truthy. -/
def truthy (s : JSString) : Bool := !s.isEmpty

/-- Truthiness of an optional (possibly `undefined`) string property. -/
def truthyOpt : Option JSString → Bool
  | none => false
  | some s => truthy s

/-- The expression `x || d` for an optional string property `x`. -/
def orElseStr (x : Option JSString) (d : JSString) : JSString :=
  match x with
  | some s => if truthy s then s else d
  | none => d

/-- Code points ECMAScript's `trim` removes: WhiteSpace and LineTerminator. -/
def isJSWhiteSpace (c : Char) : Bool :=
  let n := c.toNat
  n = 9 || n = 10 || n = 11 || n = 12 || n = 13 || n = 32 || n = 160 ||
  n = 5760 || (8192 ≤ n && n ≤ 8202) || n = 8232 || n = 8233 || n = 8239 ||
  n = 8287 || n = 12288 || n = 65279

/-- The method `String.prototype.trim`. -/
def trim (s : JSString) : JSString :=
  ((s.dropWhile isJSWhiteSpace).reverse.dropWhile isJSWhiteSpace).reverse

/-- The double quote character. -/
def dquote : Char := Char.ofNat 34

/-- The single quote character. -/
def squote : Char := Char.ofNat 39

/-! ## Filename parsing in the video-download handler (script.js 88-93) -/

/-- Removes the literal `lit` from the front of `s`, if it is there. -/
def stripLit : JSString → JSString → Option JSString
  | [], s => some s
  | _ :: _, [] => none
  | a :: lit, b :: s => if a = b then stripLit lit s else none

/-- The tail `=([^;]+)` of the pattern at `s`: an equals sign, then the longest
non-empty run of characters other than a semicolon, which is the capture. -/
def matchEqCapture : JSString → Option JSString
  | '=' :: r =>
    let g := r.takeWhile (fun c => c != ';')
    if g.isEmpty then none else some g
  | _ => none

/-- The pattern `/filename\*?=([^;]+)/` tried at the start of `s`, by
backtracking: the greedy `\*?` first takes a star when there is one, and gives
it back when the rest of the pattern fails. Returns capture group 1. -/
def matchFilenameAt (s : JSString) : Option JSString :=
  match stripLit "filename".toList s with
  | none => none
  | some r =>
    match r with
    | '*' :: r' =>
      match matchEqCapture r' with
      | some g => some g
      | none => matchEqCapture r
    | _ => matchEqCapture r

/-- The call `contentDisposition.match(/filename\*?=([^;]+)/)`: the pattern is
tried at every start position from the left, the first success wins; the result
is `match[1]`, or `none` for a `null` match. -/
def matchFilename : JSString → Option JSString
  | [] => matchFilenameAt []
  | c :: cs =>
    match matchFilenameAt (c :: cs) with
    | some g => some g
    | none => matchFilename cs

/-- The call `.replace(/['"]/g, "")`: every quote character is removed. -/
def stripQuotes (s : JSString) : JSString :=
  s.filter (fun c => !(c == squote || c == dquote))

/-- The default name of the saved video. -/
def defaultFilename : JSString := "tiktok_video.mp4".toList

/-- The expression `res.headers.get("content-disposition") || ""`: an absent header
(`null`) and an empty one both give the empty string. -/
def contentDispositionOf (h : Option JSString) : JSString := orElseStr h []

/-- The filename computed by lines 88-93 of script.js from the header value
returned by `res.headers.get("content-disposition")`. -/
def parseFilename (h : Option JSString) : JSString :=
  let contentDisposition := contentDispositionOf h
  match matchFilename contentDisposition with
  | some m1 => trim (stripQuotes m1)
  | none => defaultFilename

/-! ## The DOM, effects and promises -/

/-- A DOM element: the properties the scripts read or write. `classList` is the
list of class tokens, `background` is `style.background`, `display` is
`style.display`. -/
structure Element where
  classList : List JSString := []
  textContent : JSString := []
  background : JSString := []
  display : JSString := []
  src : JSString := []
  href : JSString := []
  download : JSString := []
  deriving DecidableEq, Repr

/-- The class token `hidden`. -/
def hiddenClass : JSString := "hidden".toList

/-- The call `el.classList.contains(tok)`. -/
def Element.hasClass (el : Element) (tok : JSString) : Bool := el.classList.contains tok

/-- The call `el.classList.add(tok)`: the token is appended unless already there. -/
def Element.classAdd (el : Element) (tok : JSString) : Element :=
  if el.hasClass tok then el else { el with classList := el.classList ++ [tok] }

/-- The call `el.classList.remove(tok)`. -/
def Element.classRemove (el : Element) (tok : JSString) : Element :=
  { el with classList := el.classList.filter (fun c => c != tok) }

/-- The helper `hide(el)` of script.js line 23. -/
def hide (el : Element) : Element :=
  if !el.hasClass hiddenClass then el.classAdd hiddenClass else el

/-- The helper `show(el)` of script.js line 24. -/
def showEl (el : Element) : Element :=
  if el.hasClass hiddenClass then el.classRemove hiddenClass else el

/-- An element is hidden when it carries the class `hidden`. -/
def Element.isHidden (el : Element) : Bool := el.hasClass hiddenClass

/-- The body of a request. -/
inductive Body where
  /-- The text `JSON.stringify({url})`. -/
  | jsonUrl (url : JSString)
  /-- A fresh `FormData` with the single field `url`. -/
  | formUrl (url : JSString)
  /-- The `FormData` of a whole form element. -/
  | wholeForm
  deriving DecidableEq, Repr

/-- Observable effects of a handler, in the order they happen. -/
inductive Effect where
  /-- A call of `fetch(endpoint, {method: "POST", body})`. -/
  | fetch (endpoint : JSString) (body : Body)
  /-- A call of `emailjs.sendForm`. -/
  | sendForm
  /-- A call of `console.error`. -/
  | consoleError
  /-- A call of `window.open(url, "_blank")`. -/
  | openTab (url : JSString)
  /-- A click on a synthetic anchor whose `download` attribute is `filename`. -/
  | saveAs (filename : JSString)
  /-- A call of `form.reset()`. -/
  | formReset
  deriving DecidableEq, Repr

/-- Whether an effect is a network call. -/
def Effect.isNetwork : Effect → Bool
  | .fetch _ _ => true
  | .sendForm => true
  | _ => false

/-- Whether an effect opens a new tab. -/
def Effect.isOpenTab : Effect → Bool
  | .openTab _ => true
  | _ => false

/-- How the promise of an asynchronous handler settles. -/
inductive Settled where
  | fulfilled
  | rejected
  deriving DecidableEq, Repr

/-- The outcome of running a handler on a page of type `σ`. -/
structure Run (σ : Type) where
  page : σ
  effects : List Effect
  settled : Settled

/-- The outcome of `await fetch(...)` followed by `await res.json()` and the
first property access on the parsed value. `failed message` stands for each
way this throws before the handler touches the page again: `fetch` rejects,
`res.json()` rejects on a body that is not JSON, or the parsed value is `null`
and reading a property of it throws a `TypeError`; `message` is the `message`
of the thrown error. -/
inductive JsonReply (α : Type) where
  | failed (message : JSString)
  | value (data : α)

/-- A response of a binary endpoint, as far as the handlers look at it.
`text` is the result of `await res.text()` (`none` when it rejects), `blob`
tells whether `await res.blob()` resolves, `contentDisposition` is
`res.headers.get("content-disposition")` (`none` for `null`). -/
structure Response where
  ok : Bool
  text : Option JSString
  blob : Bool
  contentDisposition : Option JSString

/-- The outcome of `await fetch(...)` on a binary endpoint. -/
inductive FetchReply where
  | rejected
  | response (res : Response)

/-! ## script.js -/

/-- The elements script.js looks up, and the value of the URL field. -/
structure Page where
  urlInput : JSString
  thumbnailCard : Element
  thumbImg : Element
  videoTitle : Element
  videoUploader : Element
  messageBox : Element
  deriving DecidableEq, Repr

/-- The background of an error status. -/
def errorBackground : JSString := "rgba(255,0,0,0.15)".toList

/-- The background of a status that is not an error. -/
def plainBackground : JSString := "rgba(255,255,255,0.15)".toList

/-- The function `setMessage(msg, isError)` of script.js lines 27-32. -/
def setMessage (p : Page) (msg : JSString) (isError : Bool) : Page :=
  let m := { p.messageBox with textContent := msg }
  let m := if isError then { m with background := errorBackground }
           else { m with background := plainBackground }
  { p with messageBox := showEl m }

/-- The metadata record returned by `/thumbnail`. An absent field is `none`. -/
structure PreviewMetadata where
  ok : Bool
  thumbnail : Option JSString := none
  title : Option JSString := none
  uploader : Option JSString := none
  error : Option JSString := none

/-- The placeholder image path. -/
def placeholderPath : JSString := "/static/images/placeholder-thumbnail.png".toList

/-- The part of `fetchThumbnail(url)` that runs before the first `await`,
script.js lines 36-44: the card is hidden, a short input returns, otherwise the
status is set and the request is issued. The result is the page and the request,
`none` when the guard of line 37 returned. -/
def fetchThumbnailStart (p : Page) (url : JSString) : Page × Option Effect :=
  let p := { p with thumbnailCard := hide p.thumbnailCard }
  if !truthy url || jsLength url < 6 then (p, none)
  else
    (setMessage p "Fetching preview...".toList false,
      some (Effect.fetch "/thumbnail".toList (.jsonUrl url)))

/-- The part of `fetchThumbnail(url)` that runs once the awaits of lines 40 and
45 have settled, script.js lines 45-60, on the page as it is at that moment.
The effects are those after the request. -/
def fetchThumbnailResume (p : Page) (reply : JsonReply PreviewMetadata) : Run Page :=
  match reply with
  | .failed _ =>
    ⟨setMessage p "Could not fetch preview".toList true, [.consoleError], .fulfilled⟩
  | .value data =>
    if !data.ok then
      ⟨setMessage p ("Preview not available: ".toList ++ orElseStr data.error "unknown".toList)
        true, [], .fulfilled⟩
    else
      let img := if truthyOpt data.thumbnail then { p.thumbImg with src := data.thumbnail.getD [] }
                 else { p.thumbImg with src := placeholderPath }
      let title := { p.videoTitle with
        textContent := orElseStr data.title "No title available".toList }
      let uploader := { p.videoUploader with
        textContent := if truthyOpt data.uploader then "By: ".toList ++ data.uploader.getD []
                       else [] }
      let p := { p with thumbImg := img, videoTitle := title, videoUploader := uploader,
                        thumbnailCard := showEl p.thumbnailCard }
      ⟨setMessage p "Preview loaded!".toList false, [], .fulfilled⟩

/-- The function `fetchThumbnail(url)` of script.js lines 35-61. The call is
suspended at the awaits of lines 40 and 45; `during` is what everything else on
the page (other calls of `fetchThumbnail` in flight, the other handlers, the
user) does to the page in the meantime. No statement of the call runs between
its two awaits, so one function stands for both waits. -/
def fetchThumbnail (p : Page) (url : JSString) (during : Page → Page)
    (reply : JsonReply PreviewMetadata) : Run Page :=
  match fetchThumbnailStart p url with
  | (p, none) => ⟨p, [], .fulfilled⟩
  | (p, some req) =>
    let r := fetchThumbnailResume (during p) reply
    ⟨r.page, req :: r.effects, r.settled⟩

/-- The submit handler of the download form, script.js lines 73-107. -/
def downloadSubmit (p : Page) (reply : FetchReply) : Run Page :=
  let url := trim p.urlInput
  if !truthy url then ⟨setMessage p "Paste a TikTok URL first".toList true, [], .fulfilled⟩
  else
    let p := setMessage p "Preparing download...".toList false
    let req := Effect.fetch "/download".toList .wholeForm
    let caught : Run Page :=
      ⟨setMessage p "Error while downloading video.".toList true, [req, .consoleError], .fulfilled⟩
    match reply with
    | .rejected => caught
    | .response res =>
      if !res.ok then
        match res.text with
        | none => caught
        | some text => ⟨setMessage p ("Download failed: ".toList ++ text) true, [req], .fulfilled⟩
      else if !res.blob then caught
      else
        let filename := parseFilename res.contentDisposition
        ⟨setMessage p "Download completed!".toList false, [req, .saveAs filename], .fulfilled⟩

/-- The click handler of the MP3 button, script.js lines 110-137. -/
def downloadMp3Click (p : Page) (reply : FetchReply) : Run Page :=
  let url := trim p.urlInput
  if !truthy url then ⟨setMessage p "Paste a TikTok URL first".toList true, [], .fulfilled⟩
  else
    let p := setMessage p "Preparing MP3...".toList false
    let req := Effect.fetch "/download-mp3".toList (.formUrl url)
    let caught : Run Page :=
      ⟨setMessage p "Error while downloading MP3.".toList true, [req, .consoleError], .fulfilled⟩
    match reply with
    | .rejected => caught
    | .response res =>
      if !res.ok then
        match res.text with
        | none => caught
        | some text => ⟨setMessage p ("MP3 failed: ".toList ++ text) true, [req], .fulfilled⟩
      else if !res.blob then caught
      else
        ⟨setMessage p "MP3 downloaded!".toList false, [req, .saveAs "audio.mp3".toList], .fulfilled⟩

/-- The click handler of the preview button, script.js lines 140-144. It is not
asynchronous; it is given the same outcome type, always fulfilled. -/
def previewClick (p : Page) : Run Page :=
  let url := trim p.urlInput
  if !truthy url then ⟨setMessage p "Paste a TikTok URL first".toList true, [], .fulfilled⟩
  else ⟨p, [.openTab url], .fulfilled⟩

/-- The three actions of script.js. -/
inductive Action where
  | download
  | mp3
  | preview
  deriving DecidableEq, Repr

/-- Runs an action; `reply` is the outcome of its network call, if it makes one. -/
def runAction (a : Action) (p : Page) (reply : FetchReply) : Run Page :=
  match a with
  | .download => downloadSubmit p reply
  | .mp3 => downloadMp3Click p reply
  | .preview => previewClick p

/-! ## debounce (script.js lines 2-8) and the input listener (lines 64-70) -/

/-- A pending timeout of the host: the identifier `setTimeout` returned, the
time it is due, and the arguments its callback passes to `fn`. -/
structure Timeout (α : Type) where
  id : Nat
  due : Nat
  args : α

/-- The state around one function returned by `debounce(fn, delay)`: the
closure variable `t` (`none` for `undefined`), the pending timeouts of the
host, the next identifier `setTimeout` hands out, and the invocations of `fn`
so far, each with the time it happened and its argument. -/
structure Debounced (α : Type) where
  t : Option Nat
  timers : List (Timeout α)
  nextId : Nat
  calls : List (Nat × α)

/-- The state right after `debounce(fn, delay)` returned. -/
def Debounced.fresh (α : Type) : Debounced α := ⟨none, [], 1, []⟩

/-- The call `clearTimeout(t)`: the timeout with that identifier, if pending, is
dropped; `clearTimeout(undefined)` does nothing. -/
def clearTimeout {α : Type} (t : Option Nat) (timers : List (Timeout α)) : List (Timeout α) :=
  match t with
  | none => timers
  | some i => timers.filter (fun x => x.id != i)

/-- One call, at time `now`, of the function returned by `debounce(fn, delay)`:
lines 5-6. -/
def debounce {α : Type} (delay : Nat) (st : Debounced α) (now : Nat) (args : α) : Debounced α :=
  let timers := clearTimeout st.t st.timers
  { st with
    t := some st.nextId
    timers := timers ++ [⟨st.nextId, now + delay, args⟩]
    nextId := st.nextId + 1 }

/-- Inserts a timeout into a list ordered by due time, after those due no later. -/
def insertByDue {α : Type} (x : Timeout α) : List (Timeout α) → List (Timeout α)
  | [] => [x]
  | y :: ys => if y.due ≤ x.due then y :: insertByDue x ys else x :: y :: ys

/-- Orders timeouts by due time, keeping the order of creation among equals. -/
def sortByDue {α : Type} (l : List (Timeout α)) : List (Timeout α) :=
  l.foldl (fun acc x => insertByDue x acc) []

/-- The host lets the clock reach `now`: every pending timeout due by then
fires, in order of due time, and its callback invokes `fn` with the stored
arguments; the invocation is recorded with the time the timeout was due. -/
def fireDue {α : Type} (st : Debounced α) (now : Nat) : Debounced α :=
  let due := sortByDue (st.timers.filter (fun x => x.due ≤ now))
  { st with
    timers := st.timers.filter (fun x => !(x.due ≤ now))
    calls := st.calls ++ due.map (fun x => (x.due, x.args)) }

/-- A call at time `ev.1` with argument `ev.2`, after the timeouts due by then. -/
def callAt {α : Type} (delay : Nat) (st : Debounced α) (ev : Nat × α) : Debounced α :=
  debounce delay (fireDue st ev.1) ev.1 ev.2

/-- The calls of `events` in order, then the clock runs on to `horizon` with no
further call. -/
def runCalls {α : Type} (delay : Nat) (st : Debounced α) (events : List (Nat × α))
    (horizon : Nat) : Debounced α :=
  fireDue (events.foldl (callAt delay) st) horizon

/-- The quiet period of `debouncedFetch`, line 64. -/
def previewDelay : Nat := 700

/-- The `input` listener of lines 67-70 at time `ev.1`, the field holding `ev.2`:
the value is trimmed and handed to `debouncedFetch`. -/
def onInput (ev : Nat × JSString) : Nat × JSString := (ev.1, trim ev.2)

/-- A run of `input` events on the URL field, then quiet until `horizon`. -/
def runInputs (st : Debounced JSString) (events : List (Nat × JSString)) (horizon : Nat) :
    Debounced JSString :=
  runCalls previewDelay st (events.map onInput) horizon

/-- The preview requests issued by the recorded invocations `(val) => fetchThumbnail(val)`,
each with the time it is issued, on page `p`, with `during` happening on the
page during the wait and the network replying `reply`. -/
def previewRequests (p : Page) (during : Page → Page) (reply : JsonReply PreviewMetadata)
    (calls : List (Nat × JSString)) : List (Nat × Effect) :=
  calls.flatMap (fun c =>
    ((fetchThumbnail p c.2 during reply).effects.filter Effect.isNetwork).map
      (fun e => (c.1, e)))

/-! ## stories.js -/

/-- The JSON body of `/download_story`. An absent field is `none`. -/
structure StoryResult where
  error : Option JSString := none
  message : Option JSString := none

/-- The text of a possibly `undefined` string in a concatenation. -/
def textOf : Option JSString → JSString
  | some s => s
  | none => "undefined".toList

/-- The submit handler of stories.js, lines 4-20, on the element `storyMessage`. -/
def storiesSubmit (storyMessage : Element) (reply : JsonReply StoryResult) : Run Element :=
  let m := { storyMessage with textContent := "Fetching story...".toList, display := "block".toList }
  let req := Effect.fetch "/download_story".toList .wholeForm
  match reply with
  | .failed _ => ⟨m, [req], .rejected⟩
  | .value result =>
    if truthyOpt result.error then
      ⟨({ m with textContent := "❌ ".toList ++ textOf result.error }).classAdd "error".toList,
        [req], .fulfilled⟩
    else
      ⟨({ m with textContent := "✅ ".toList ++ textOf result.message }).classAdd "success".toList,
        [req], .fulfilled⟩

/-- Successive submissions of the stories form, one reply each. -/
def storiesSubmits (storyMessage : Element) (replies : List (JsonReply StoryResult)) : Element :=
  replies.foldl (fun el r => (storiesSubmit el r).page) storyMessage

/-! ## mail.js -/

/-- How the promise of `emailjs.sendForm` settles. -/
inductive SendOutcome where
  | resolved
  | rejected
  deriving DecidableEq, Repr

/-- The status element right after line 8 of mail.js: `Sending...` is shown, the
class is left as it was. -/
def mailSending (status : Element) : Element :=
  { status with textContent := "Sending...".toList }

/-- The submit handler of mail.js, lines 5-21, on the element `status`. Assigning
`className` replaces the class tokens. -/
def mailSubmit (status : Element) (o : SendOutcome) : Run Element :=
  let st := mailSending status
  match o with
  | .resolved =>
    ⟨{ st with textContent := "Message sent successfully! 🚀".toList,
               classList := ["note".toList, "success".toList] },
      [.sendForm, .formReset], .fulfilled⟩
  | .rejected =>
    ⟨{ st with textContent := "Oops! Something went wrong.".toList,
               classList := ["note".toList, "error".toList] },
      [.sendForm, .consoleError], .fulfilled⟩

/-! ## mp.js -/

/-- The elements mp.js looks up, and the value of the URL field. -/
structure MpPage where
  urlInput : JSString
  spinner : Element
  messageBox : Element
  previewCard : Element
  previewThumbnail : Element
  previewTitle : Element
  previewAudio : Element
  downloadLink : Element
  deriving DecidableEq, Repr

/-- The JSON body of the JSON variant of `/download-mp3`. -/
structure Mp3Data where
  ok : Bool
  url : Option JSString := none
  title : Option JSString := none
  error : Option JSString := none

/-- The submit handler of mp.js, lines 12-62. -/
def mpSubmit (p : MpPage) (metaReply : JsonReply PreviewMetadata) (mp3Reply : JsonReply Mp3Data) :
    Run MpPage :=
  let url := trim p.urlInput
  if !truthy url then ⟨p, [], .fulfilled⟩
  else
    let p := { p with
      messageBox := { p.messageBox with textContent := [] }
      previewCard := { p.previewCard with display := "none".toList }
      spinner := { p.spinner with display := "block".toList } }
    let req1 := Effect.fetch "/thumbnail".toList (.jsonUrl url)
    let req2 := Effect.fetch "/download-mp3".toList (.jsonUrl url)
    let caught (reqs : List Effect) (message : JSString) : Run MpPage :=
      ⟨{ p with
          spinner := { p.spinner with display := "none".toList }
          messageBox := { p.messageBox with textContent := "Error: ".toList ++ message } },
        reqs, .fulfilled⟩
    match metaReply with
    | .failed message => caught [req1] message
    | .value metaData =>
      if !metaData.ok then
        ⟨{ p with
            spinner := { p.spinner with display := "none".toList }
            messageBox := { p.messageBox with
              textContent := orElseStr metaData.error "Failed to fetch metadata.".toList } },
          [req1], .fulfilled⟩
      else
        match mp3Reply with
        | .failed message => caught [req1, req2] message
        | .value mp3Data =>
          let p := { p with spinner := { p.spinner with display := "none".toList } }
          if !mp3Data.ok then
            ⟨{ p with messageBox := { p.messageBox with
                textContent := orElseStr mp3Data.error "MP3 conversion failed.".toList } },
              [req1, req2], .fulfilled⟩
          else
            ⟨{ p with
                previewThumbnail := { p.previewThumbnail with src := orElseStr metaData.thumbnail [] }
                previewTitle := { p.previewTitle with
                  textContent := orElseStr mp3Data.title "TikTok Audio".toList }
                previewAudio := { p.previewAudio with src := textOf mp3Data.url }
                downloadLink := { p.downloadLink with
                  href := textOf mp3Data.url
                  download := orElseStr mp3Data.title "audio".toList ++ ".mp3".toList }
                previewCard := { p.previewCard with display := "block".toList } },
              [req1, req2], .fulfilled⟩

/-! ## Concrete inputs -/

/-- The header value `attachment; filename="<name>"`. -/
def quotedHeader (name : JSString) : JSString :=
  "attachment; filename=".toList ++ dquote :: (name ++ [dquote])

/-- A page whose URL field holds a link and whose preview card starts hidden. -/
def examplePage : Page :=
  { urlInput := "https://vt.tiktok.com/ZS123/".toList
    thumbnailCard := { classList := [hiddenClass] }
    thumbImg := {}
    videoTitle := {}
    videoUploader := {}
    messageBox := { classList := [hiddenClass] } }

/-- The same page with a URL field holding only blanks. -/
def blankPage : Page := { examplePage with urlInput := "  ".toList }

/-- A successful binary response with the given header. -/
def okResponse (contentDisposition : Option JSString) : Response :=
  { ok := true, text := some [], blob := true, contentDisposition := contentDisposition }

/-- The URL of the end-to-end example. -/
def exampleUrl : JSString := "https://vt.tiktok.com/ZS123/".toList

/-- The metadata response of the end-to-end example. -/
def catVideo : PreviewMetadata :=
  { ok := true, title := some "Cat video".toList, thumbnail := some "http://x/y.jpg".toList }

/-- A successful metadata response whose thumbnail and title fields are present
and empty. -/
def emptyFields : PreviewMetadata :=
  { ok := true, title := some [], thumbnail := some [] }

/-- A story reply carrying an error. -/
def storyError : JsonReply StoryResult := .value { error := some "not found".toList }

/-- A story reply carrying a message. -/
def storySuccess : JsonReply StoryResult := .value { message := some "saved".toList }

/-- A burst of two input events 100 ms apart. -/
def exampleBurst : List (Nat × JSString) :=
  [(0, "https://vt.tiktok.com/ZS12".toList), (100, " https://vt.tiktok.com/ZS123/ ".toList)]

/-- The continuation of an earlier call of `fetchThumbnail`, still in flight,
whose successful reply arrives while a later call is waiting for its own. -/
def earlierReplyLands (q : Page) : Page := (fetchThumbnailResume q (.value catVideo)).page

/-- The page on which the later of two overlapping calls starts: an earlier
call has hidden the card, set the status and issued its request. -/
def firstCallPending : Page :=
  (fetchThumbnailStart examplePage "https://vt.tiktok.com/ZS12".toList).1

/-- A failed metadata response with an error text. -/
def privateVideo : PreviewMetadata :=
  { ok := false, error := some "Video is private".toList }

/-! ## Lemmas on strings and on the filename pattern -/

theorem stripLit_eq_some {lit s r : JSString} (h : stripLit lit s = some r) : s = lit ++ r := by
  induction lit generalizing s with
  | nil => simp [stripLit] at h; simp [h]
  | cons a lit ih =>
    cases s with
    | nil => simp [stripLit] at h
    | cons b s =>
      simp only [stripLit] at h
      split at h
      · rename_i hab
        rw [hab, ih h]; rfl
      · cases h

theorem stripLit_append (lit r : JSString) : stripLit lit (lit ++ r) = some r := by
  induction lit with
  | nil => simp [stripLit]
  | cons a lit ih => simp [stripLit, ih]

theorem matchEqCapture_eq_some {r g : JSString} (h : matchEqCapture r = some g) :
    ∃ c post, c ≠ ';' ∧ r = '=' :: c :: post := by
  unfold matchEqCapture at h
  split at h
  · rename_i r'
    cases r' with
    | nil => simp at h
    | cons c post =>
      by_cases hc : c = ';'
      · subst hc; simp at h
      · exact ⟨c, post, hc, rfl⟩
  · cases h

theorem matchFilenameAt_eq_some {s g : JSString} (h : matchFilenameAt s = some g) :
    ∃ c post, c ≠ ';' ∧
      (s = "filename=".toList ++ c :: post ∨ s = "filename*=".toList ++ c :: post) := by
  unfold matchFilenameAt at h
  split at h
  · cases h
  · rename_i r hr
    have hs := stripLit_eq_some hr
    split at h
    · rename_i r'
      split at h
      · rename_i g' hg
        obtain ⟨c, post, hc, hr'⟩ := matchEqCapture_eq_some hg
        exact ⟨c, post, hc, Or.inr (by rw [hs, hr']; rfl)⟩
      · simp [matchEqCapture] at h
    · obtain ⟨c, post, hc, hr'⟩ := matchEqCapture_eq_some h
      exact ⟨c, post, hc, Or.inl (by rw [hs, hr']; rfl)⟩

theorem matchFilename_eq_none (s : JSString)
    (h : ∀ pre c post, c ≠ ';' →
      s ≠ pre ++ ("filename=".toList ++ c :: post) ∧
      s ≠ pre ++ ("filename*=".toList ++ c :: post)) :
    matchFilename s = none := by
  have hat : ∀ s : JSString, (∀ pre c post, c ≠ ';' →
      s ≠ pre ++ ("filename=".toList ++ c :: post) ∧
      s ≠ pre ++ ("filename*=".toList ++ c :: post)) → matchFilenameAt s = none := by
    intro s h
    cases hm : matchFilenameAt s with
    | none => rfl
    | some g =>
      obtain ⟨c, post, hc, hs⟩ := matchFilenameAt_eq_some hm
      rcases hs with hs | hs
      · exact absurd hs (by simpa using (h [] c post hc).1)
      · exact absurd hs (by simpa using (h [] c post hc).2)
  induction s with
  | nil => simp only [matchFilename]; exact hat [] h
  | cons a s ih =>
    simp only [matchFilename, hat (a :: s) h]
    apply ih
    intro pre c post hc
    have := h (a :: pre) c post hc
    constructor
    · intro e; exact this.1 (by rw [e]; rfl)
    · intro e; exact this.2 (by rw [e]; rfl)

theorem takeWhile_notSemicolon (l : JSString) (h : ';' ∉ l) :
    l.takeWhile (fun c => c != ';') = l := by
  induction l with
  | nil => rfl
  | cons a l ih =>
    have ha : a ≠ ';' := fun e => h (by simp [e])
    have hl : ';' ∉ l := fun e => h (by simp [e])
    simp [List.takeWhile_cons, ha, ih hl]

theorem stripQuotes_noQuotes (l : JSString) (hs : squote ∉ l) (hd : dquote ∉ l) :
    stripQuotes l = l := by
  unfold stripQuotes
  rw [List.filter_eq_self]
  intro a ha
  have h1 : a ≠ squote := fun e => hs (e ▸ ha)
  have h2 : a ≠ dquote := fun e => hd (e ▸ ha)
  simp [h1, h2]

theorem dropWhile_head_false (l : JSString)
    (h : ∀ c, l.head? = some c → isJSWhiteSpace c = false) :
    l.dropWhile isJSWhiteSpace = l := by
  cases l with
  | nil => rfl
  | cons a l => simp [List.dropWhile_cons, h a rfl]

theorem trim_eq_self (l : JSString)
    (hhead : ∀ c, l.head? = some c → isJSWhiteSpace c = false)
    (hlast : ∀ c, l.getLast? = some c → isJSWhiteSpace c = false) :
    trim l = l := by
  unfold trim
  rw [dropWhile_head_false l hhead, dropWhile_head_false l.reverse, List.reverse_reverse]
  intro c hc
  apply hlast
  simpa [List.head?_reverse] using hc

theorem matchFilename_quotedHeader (name : JSString) (hsemi : ';' ∉ name) :
    matchFilename (quotedHeader name) = some (dquote :: (name ++ [dquote])) := by
  have hq : ';' ∉ dquote :: (name ++ [dquote]) := by
    simp only [List.mem_cons, List.mem_append, List.mem_singleton, not_or]
    exact ⟨by decide, hsemi, by decide, by simp⟩
  have htw := takeWhile_notSemicolon _ hq
  have hd : (dquote != ';') = true := by decide
  simp only [List.takeWhile_cons, hd, if_true] at htw
  simp [quotedHeader, matchFilename, matchFilenameAt, stripLit, matchEqCapture,
    List.takeWhile_cons, hd]
  simpa using htw

theorem parseFilename_quotedHeader (name : JSString) (hsemi : ';' ∉ name)
    (hsq : squote ∉ name) (hdq : dquote ∉ name)
    (hhead : ∀ c, name.head? = some c → isJSWhiteSpace c = false)
    (hlast : ∀ c, name.getLast? = some c → isJSWhiteSpace c = false) :
    parseFilename (some (quotedHeader name)) = name := by
  have hcd : contentDispositionOf (some (quotedHeader name)) = quotedHeader name := by
    simp [contentDispositionOf, orElseStr, truthy, quotedHeader]
  have hsq2 : stripQuotes (dquote :: (name ++ [dquote])) = name := by
    have := stripQuotes_noQuotes name hsq hdq
    unfold stripQuotes at this ⊢
    have hd : (dquote == squote || dquote == dquote) = true := by decide
    rw [List.filter_cons, List.filter_append, this]
    simp [hd]
  simp only [parseFilename, hcd, matchFilename_quotedHeader name hsemi, hsq2]
  exact trim_eq_self name hhead hlast

theorem matchEqCapture_ne_nil {r g : JSString} (h : matchEqCapture r = some g) : g ≠ [] := by
  unfold matchEqCapture at h
  split at h
  · simp only at h
    split at h
    · cases h
    · rename_i hg
      cases h
      intro e
      exact hg (by simp [e])
  · cases h

theorem matchFilenameAt_ne_nil {s g : JSString} (h : matchFilenameAt s = some g) : g ≠ [] := by
  unfold matchFilenameAt at h
  split at h
  · cases h
  · split at h
    · split at h
      · rename_i g' hg
        cases h
        exact matchEqCapture_ne_nil hg
      · exact matchEqCapture_ne_nil h
    · exact matchEqCapture_ne_nil h

theorem matchFilename_ne_nil {s g : JSString} (h : matchFilename s = some g) : g ≠ [] := by
  induction s with
  | nil => exact matchFilenameAt_ne_nil (by simpa [matchFilename] using h)
  | cons a s ih =>
    simp only [matchFilename] at h
    split at h
    · rename_i g' hg
      cases h
      exact matchFilenameAt_ne_nil hg
    · exact ih h

/-- The filename is the default, or a non-empty capture of the pattern with its
quotes removed and then trimmed; nothing checks that what is left is non-empty. -/
theorem parseFilename_cases (h : Option JSString) :
    parseFilename h = defaultFilename ∨
    ∃ m, matchFilename (contentDispositionOf h) = some m ∧ m ≠ [] ∧
      parseFilename h = trim (stripQuotes m) := by
  cases hm : matchFilename (contentDispositionOf h) with
  | none => exact Or.inl (by simp only [parseFilename, hm])
  | some m => exact Or.inr ⟨m, rfl, matchFilename_ne_nil hm, by simp only [parseFilename, hm]⟩

/-! ## The filename of the saved video -/

/-- C1: in the video-download submit handler, a success response whose
Content-Disposition header is `attachment; filename="<name>"`, for a name with no
semicolon, no quote and no leading or trailing whitespace, is saved under
exactly `<name>`; the header `attachment; filename="clip.mp4"` gives `clip.mp4`.
(The name need not even be non-empty.) -/
theorem downloadSubmit_saves_quoted_name (p : Page) (res : Response) (name : JSString)
    (hurl : trim p.urlInput ≠ []) (hok : res.ok = true) (hblob : res.blob = true)
    (hcd : res.contentDisposition = some (quotedHeader name))
    (hsemi : ';' ∉ name) (hsq : squote ∉ name) (hdq : dquote ∉ name)
    (hhead : ∀ c, name.head? = some c → isJSWhiteSpace c = false)
    (hlast : ∀ c, name.getLast? = some c → isJSWhiteSpace c = false) :
    parseFilename res.contentDisposition = name ∧
    (downloadSubmit p (.response res)).effects
      = [.fetch "/download".toList .wholeForm, .saveAs name] ∧
    parseFilename (some "attachment; filename=\"clip.mp4\"".toList) = "clip.mp4".toList := by
  have hname := parseFilename_quotedHeader name hsemi hsq hdq hhead hlast
  have ht : truthy (trim p.urlInput) = true := by
    cases h : trim p.urlInput with
    | nil => exact absurd h hurl
    | cons a l => rfl
  refine ⟨by rw [hcd, hname], ?_, by decide⟩
  simp [downloadSubmit, ht, hok, hblob, hcd, hname]

theorem downloadSubmit_saves_quoted_name_witness :
    (downloadSubmit examplePage (.response (okResponse (some (quotedHeader "clip.mp4".toList))))).effects
      = [.fetch "/download".toList .wholeForm, .saveAs "clip.mp4".toList] :=
  (downloadSubmit_saves_quoted_name examplePage
    (okResponse (some (quotedHeader "clip.mp4".toList))) "clip.mp4".toList
    (by decide) rfl rfl rfl (by decide) (by decide) (by decide) (by decide) (by decide)).2.1

/-- C2: in the video-download submit handler, when the success response has no
Content-Disposition header, and more generally for every header value in which
neither `filename=` nor `filename*=` is followed by a character other than a
semicolon, the file is saved under the default `tiktok_video.mp4`. -/
theorem downloadSubmit_default_name (p : Page) (res : Response)
    (hurl : trim p.urlInput ≠ []) (hok : res.ok = true) (hblob : res.blob = true)
    (h : ∀ s, res.contentDisposition = some s → ∀ pre c post, c ≠ ';' →
      s ≠ pre ++ ("filename=".toList ++ c :: post) ∧
      s ≠ pre ++ ("filename*=".toList ++ c :: post)) :
    parseFilename res.contentDisposition = "tiktok_video.mp4".toList ∧
    (downloadSubmit p (.response res)).effects
      = [.fetch "/download".toList .wholeForm, .saveAs "tiktok_video.mp4".toList] ∧
    parseFilename none = "tiktok_video.mp4".toList := by
  have hname : parseFilename res.contentDisposition = "tiktok_video.mp4".toList := by
    have hm : matchFilename (contentDispositionOf res.contentDisposition) = none := by
      cases hc : res.contentDisposition with
      | none => rfl
      | some s =>
        by_cases hs : s = []
        · subst hs; rfl
        · have : contentDispositionOf (some s) = s := by
            cases s with
            | nil => exact absurd rfl hs
            | cons a l => rfl
          rw [this]
          exact matchFilename_eq_none s (h s hc)
    simp only [parseFilename, hm]
    rfl
  have ht : truthy (trim p.urlInput) = true := by
    cases h : trim p.urlInput with
    | nil => exact absurd h hurl
    | cons a l => rfl
  refine ⟨hname, ?_, by decide⟩
  simp [downloadSubmit, ht, hok, hblob, hname]

theorem downloadSubmit_default_name_witness :
    (downloadSubmit examplePage (.response (okResponse (some "inline".toList)))).effects
      = [.fetch "/download".toList .wholeForm, .saveAs "tiktok_video.mp4".toList] :=
  (downloadSubmit_default_name examplePage (okResponse (some "inline".toList))
    (by decide) rfl rfl
    (by
      intro s hs pre c post _
      have hs' : s = "inline".toList := by
        simp only [okResponse, Option.some.injEq] at hs
        exact hs.symm
      subst hs'
      constructor <;> intro e <;> have hl := congrArg List.length e <;>
        simp at hl <;> omega)).2.1

/-- C10 (the code departs from it): for the header `attachment; filename=""` the
pattern matches, the capture holds only quotes, and the handler saves the file
under the empty name, which is neither a non-empty name nor the default. The
same happens for a capture of blanks, as in `attachment; filename= ; size=3`. -/
theorem downloadSubmit_empty_filename :
    parseFilename (some "attachment; filename=\"\"".toList) = [] ∧
    parseFilename (some "attachment; filename= ; size=3".toList) = [] ∧
    (downloadSubmit examplePage
      (.response (okResponse (some "attachment; filename=\"\"".toList)))).effects
      = [.fetch "/download".toList .wholeForm, .saveAs []] := by
  decide

/-! ## Visibility and the status box -/

theorem hide_isHidden (el : Element) : (hide el).isHidden = true := by
  unfold hide Element.isHidden
  by_cases h : el.hasClass hiddenClass = true
  · simp [h]
  · simp only [h, Bool.not_false, if_true, Element.classAdd, Bool.false_eq_true, if_false]
    simp [Element.hasClass]

theorem showEl_isHidden (el : Element) : (showEl el).isHidden = false := by
  unfold showEl Element.isHidden
  by_cases h : el.hasClass hiddenClass = true
  · simp only [h, if_true, Element.classRemove]
    simp [Element.hasClass]
  · simp only [h, Bool.false_eq_true, if_false]

theorem showEl_textContent (el : Element) : (showEl el).textContent = el.textContent := by
  unfold showEl Element.classRemove
  split <;> rfl

theorem showEl_background (el : Element) : (showEl el).background = el.background := by
  unfold showEl Element.classRemove
  split <;> rfl

theorem setMessage_textContent (p : Page) (msg : JSString) (isError : Bool) :
    (setMessage p msg isError).messageBox.textContent = msg := by
  cases isError <;> simp [setMessage, showEl_textContent]

theorem setMessage_background (p : Page) (msg : JSString) (isError : Bool) :
    (setMessage p msg isError).messageBox.background
      = if isError then errorBackground else plainBackground := by
  cases isError <;> simp [setMessage, showEl_background]

theorem setMessage_visible (p : Page) (msg : JSString) (isError : Bool) :
    (setMessage p msg isError).messageBox.isHidden = false := by
  simp [setMessage, showEl_isHidden]

theorem setMessage_thumbnailCard (p : Page) (msg : JSString) (isError : Bool) :
    (setMessage p msg isError).thumbnailCard = p.thumbnailCard := rfl

theorem setMessage_thumbImg (p : Page) (msg : JSString) (isError : Bool) :
    (setMessage p msg isError).thumbImg = p.thumbImg := rfl

theorem setMessage_videoTitle (p : Page) (msg : JSString) (isError : Bool) :
    (setMessage p msg isError).videoTitle = p.videoTitle := rfl

theorem setMessage_videoUploader (p : Page) (msg : JSString) (isError : Bool) :
    (setMessage p msg isError).videoUploader = p.videoUploader := rfl

/-- Every call of `setMessage` leaves the status box with the text and the
background of that call alone, and visible, whatever was shown before. -/
theorem setMessage_overwrites (p : Page) (m1 m2 : JSString) (e1 e2 : Bool) :
    (setMessage (setMessage p m1 e1) m2 e2).messageBox.textContent = m2 ∧
    (setMessage (setMessage p m1 e1) m2 e2).messageBox.background
      = (if e2 then errorBackground else plainBackground) ∧
    (setMessage (setMessage p m1 e1) m2 e2).messageBox.isHidden = false :=
  ⟨setMessage_textContent _ _ _, setMessage_background _ _ _, setMessage_visible _ _ _⟩

theorem jsLength_pos_ne_nil {url : JSString} (h : 6 ≤ jsLength url) : truthy url = true := by
  cases url with
  | nil => simp [jsLength] at h
  | cons a l => rfl

/-! ## fetchThumbnail -/

theorem fetchThumbnailStart_short (p : Page) (url : JSString) (hlen : jsLength url < 6) :
    fetchThumbnailStart p url = ({ p with thumbnailCard := hide p.thumbnailCard }, none) := by
  simp [fetchThumbnailStart, hlen]

theorem fetchThumbnailStart_long (p : Page) (url : JSString) (hlen : 6 ≤ jsLength url) :
    fetchThumbnailStart p url
      = (setMessage { p with thumbnailCard := hide p.thumbnailCard }
            "Fetching preview...".toList false,
          some (Effect.fetch "/thumbnail".toList (.jsonUrl url))) := by
  have ht := jsLength_pos_ne_nil hlen
  have hl : ¬ jsLength url < 6 := by omega
  simp [fetchThumbnailStart, ht, hl]

theorem fetchThumbnail_long (p : Page) (url : JSString) (during : Page → Page)
    (reply : JsonReply PreviewMetadata) (hlen : 6 ≤ jsLength url) :
    fetchThumbnail p url during reply
      = ⟨(fetchThumbnailResume (during (fetchThumbnailStart p url).1) reply).page,
          .fetch "/thumbnail".toList (.jsonUrl url)
            :: (fetchThumbnailResume (during (fetchThumbnailStart p url).1) reply).effects,
          (fetchThumbnailResume (during (fetchThumbnailStart p url).1) reply).settled⟩ := by
  simp only [fetchThumbnail, fetchThumbnailStart_long p url hlen]

/-- C4: for every input string of length below 6, the empty string included,
fetchThumbnail issues no network request (it has no effect at all besides
hiding the card) and leaves the preview card hidden, whatever the card's
visibility was before the call, whatever else happens on the page and whatever
the network would have replied. -/
theorem fetchThumbnail_short (p : Page) (url : JSString) (during : Page → Page)
    (reply : JsonReply PreviewMetadata) (hlen : jsLength url < 6) :
    (fetchThumbnail p url during reply).effects = [] ∧
    (fetchThumbnail p url during reply).effects.filter Effect.isNetwork = [] ∧
    (fetchThumbnail p url during reply).page.thumbnailCard.isHidden = true ∧
    (fetchThumbnail p url during reply).settled = .fulfilled := by
  simp [fetchThumbnail, fetchThumbnailStart_short p url hlen, hide_isHidden]

theorem fetchThumbnail_short_witness :
    (fetchThumbnail { examplePage with thumbnailCard := {} } "abc".toList earlierReplyLands
        (.value catVideo)).page.thumbnailCard.isHidden = true :=
  (fetchThumbnail_short { examplePage with thumbnailCard := {} } "abc".toList earlierReplyLands
    (.value catVideo) (by decide)).2.2.1

/-- C7 (as stated it fails): two overlapping calls of fetchThumbnail. The later
call starts while the earlier one is waiting; the earlier call's successful
reply arrives first and reveals the card; the later call then gets a response
with ok false. It sets the error status and completes with the card visible. -/
theorem fetchThumbnail_not_ok_overlap :
    privateVideo.ok = false ∧ 6 ≤ jsLength exampleUrl ∧
    (fetchThumbnailStart firstCallPending exampleUrl).1.thumbnailCard.isHidden = true ∧
    (fetchThumbnail firstCallPending exampleUrl earlierReplyLands
      (.value privateVideo)).page.thumbnailCard.isHidden = false ∧
    (fetchThumbnail firstCallPending exampleUrl earlierReplyLands
      (.value privateVideo)).page.messageBox.textContent
      = "Preview not available: Video is private".toList ∧
    (fetchThumbnail firstCallPending exampleUrl earlierReplyLands
      (.value privateVideo)).page.videoTitle.textContent = "Cat video".toList := by
  decide

/-- C7 (amended): for every URL of length at least 6 and every metadata response
with ok false, whatever else happens on the page while the call waits for the
response: fetchThumbnail hides the preview card before it issues its request
and does not touch the card after the response, so at completion the card is
as the wait left it, and it is hidden whenever nothing revealed it during the
wait, in particular when nothing else happened on the page; and fetchThumbnail
sets a visible, error-styled status whose text is `Preview not available: `
followed by the response's error string when it is present and non-empty, and by
the fallback `unknown` otherwise. -/
theorem fetchThumbnail_not_ok (p : Page) (url : JSString) (during : Page → Page)
    (data : PreviewMetadata) (hlen : 6 ≤ jsLength url) (hok : data.ok = false) :
    (fetchThumbnailStart p url).1.thumbnailCard.isHidden = true ∧
    (fetchThumbnail p url during (.value data)).page.thumbnailCard
      = (during (fetchThumbnailStart p url).1).thumbnailCard ∧
    ((during (fetchThumbnailStart p url).1).thumbnailCard.isHidden = true →
      (fetchThumbnail p url during (.value data)).page.thumbnailCard.isHidden = true) ∧
    (fetchThumbnail p url id (.value data)).page.thumbnailCard.isHidden = true ∧
    (fetchThumbnail p url during (.value data)).page.messageBox.background = errorBackground ∧
    (fetchThumbnail p url during (.value data)).page.messageBox.isHidden = false ∧
    (fetchThumbnail p url during (.value data)).page.messageBox.textContent
      = "Preview not available: ".toList ++
        (match data.error with
         | some e => if e ≠ [] then e else "unknown".toList
         | none => "unknown".toList) := by
  have hor : orElseStr data.error "unknown".toList
      = (match data.error with
         | some e => if e ≠ [] then e else "unknown".toList
         | none => "unknown".toList) := by
    cases data.error with
    | none => rfl
    | some e => cases e <;> simp [orElseStr, truthy]
  have hstart : (fetchThumbnailStart p url).1.thumbnailCard.isHidden = true := by
    rw [fetchThumbnailStart_long p url hlen]
    exact hide_isHidden _
  have hcard : ∀ d : Page → Page, (fetchThumbnail p url d (.value data)).page.thumbnailCard
      = (d (fetchThumbnailStart p url).1).thumbnailCard := by
    intro d
    rw [fetchThumbnail_long p url d _ hlen]
    simp only [fetchThumbnailResume, hok, Bool.not_false, if_true]
    exact setMessage_thumbnailCard _ _ _
  refine ⟨hstart, hcard during, ?_, ?_, ?_, ?_, ?_⟩
  · intro h
    rw [hcard during]; exact h
  · rw [hcard id]; exact hstart
  · rw [fetchThumbnail_long p url during _ hlen]
    simp only [fetchThumbnailResume, hok, Bool.not_false, if_true]
    rw [setMessage_background]; rfl
  · rw [fetchThumbnail_long p url during _ hlen]
    simp only [fetchThumbnailResume, hok, Bool.not_false, if_true]
    exact setMessage_visible _ _ _
  · rw [fetchThumbnail_long p url during _ hlen]
    simp only [fetchThumbnailResume, hok, Bool.not_false, if_true]
    rw [setMessage_textContent, hor]

theorem fetchThumbnail_not_ok_witness :
    (fetchThumbnail { examplePage with thumbnailCard := {} } exampleUrl id
        (.value privateVideo)).page.thumbnailCard.isHidden = true ∧
    (fetchThumbnail { examplePage with thumbnailCard := {} } exampleUrl earlierReplyLands
        (.value privateVideo)).page.messageBox.textContent
      = "Preview not available: Video is private".toList :=
  ⟨(fetchThumbnail_not_ok { examplePage with thumbnailCard := {} } exampleUrl id privateVideo
      (by decide) rfl).2.2.2.1,
   (fetchThumbnail_not_ok { examplePage with thumbnailCard := {} } exampleUrl earlierReplyLands
      privateVideo (by decide) rfl).2.2.2.2.2.2⟩

/-- C8 (as stated it fails): a successful metadata response whose thumbnail and
title fields are present but empty does not get its thumbnail as image source
nor its title as title text; the placeholder path and the fallback title are
used, and both differ from the empty strings of the response. -/
theorem fetchThumbnail_empty_fields :
    emptyFields.ok = true ∧ 6 ≤ jsLength exampleUrl ∧
    emptyFields.thumbnail = some [] ∧ emptyFields.title = some [] ∧
    (fetchThumbnail examplePage exampleUrl id (.value emptyFields)).page.thumbImg.src
      = "/static/images/placeholder-thumbnail.png".toList ∧
    (fetchThumbnail examplePage exampleUrl id (.value emptyFields)).page.thumbImg.src ≠ [] ∧
    (fetchThumbnail examplePage exampleUrl id (.value emptyFields)).page.videoTitle.textContent
      = "No title available".toList ∧
    (fetchThumbnail examplePage exampleUrl id (.value emptyFields)).page.videoTitle.textContent
      ≠ [] := by
  decide

/-- C8 (amended): for every URL of length at least 6 and every metadata response
with ok true, whatever else happens on the page while the call waits for the
response, fetchThumbnail issues the one request and reveals the preview
card with: the thumbnail source equal to the response's thumbnail when present
and non-empty, and to the placeholder path when absent or empty; the title
equal to the response's title when present and non-empty, and to the fallback
`No title available` when absent or empty; the uploader text `By: ` followed by
the uploader when present and non-empty, and empty when absent or empty; the
status `Preview loaded!` without the error style. -/
theorem fetchThumbnail_ok (p : Page) (url : JSString) (during : Page → Page)
    (data : PreviewMetadata) (hlen : 6 ≤ jsLength url) (hok : data.ok = true) :
    (fetchThumbnail p url during (.value data)).page.thumbnailCard.isHidden = false ∧
    (fetchThumbnail p url during (.value data)).page.thumbImg.src
      = (match data.thumbnail with
         | some t => if t ≠ [] then t else "/static/images/placeholder-thumbnail.png".toList
         | none => "/static/images/placeholder-thumbnail.png".toList) ∧
    (fetchThumbnail p url during (.value data)).page.videoTitle.textContent
      = (match data.title with
         | some t => if t ≠ [] then t else "No title available".toList
         | none => "No title available".toList) ∧
    (fetchThumbnail p url during (.value data)).page.videoUploader.textContent
      = (match data.uploader with
         | some u => if u ≠ [] then "By: ".toList ++ u else []
         | none => []) ∧
    (fetchThumbnail p url during (.value data)).page.messageBox.textContent
      = "Preview loaded!".toList ∧
    (fetchThumbnail p url during (.value data)).page.messageBox.background = plainBackground ∧
    (fetchThumbnail p url during (.value data)).effects
      = [.fetch "/thumbnail".toList (.jsonUrl url)] := by
  rw [fetchThumbnail_long p url during _ hlen]
  simp only [fetchThumbnailResume, hok, Bool.not_true, Bool.false_eq_true, if_false]
  refine ⟨?_, ?_, ?_, ?_, ?_, ?_, trivial⟩
  · rw [setMessage_thumbnailCard]; exact showEl_isHidden _
  · rw [setMessage_thumbImg]
    cases data.thumbnail with
    | none => rfl
    | some t => cases t <;> simp [truthyOpt, truthy, placeholderPath]
  · rw [setMessage_videoTitle]
    cases data.title with
    | none => rfl
    | some t => cases t <;> simp [orElseStr, truthy]
  · rw [setMessage_videoUploader]
    cases data.uploader with
    | none => rfl
    | some u => cases u <;> simp [truthyOpt, truthy]
  · exact setMessage_textContent _ _ _
  · rw [setMessage_background]; rfl

theorem fetchThumbnail_ok_witness :
    (fetchThumbnail examplePage exampleUrl earlierReplyLands (.value catVideo)).page.thumbnailCard.isHidden = false ∧
    (fetchThumbnail examplePage exampleUrl earlierReplyLands (.value catVideo)).page.thumbImg.src
      = "http://x/y.jpg".toList ∧
    (fetchThumbnail examplePage exampleUrl earlierReplyLands (.value catVideo)).page.videoTitle.textContent
      = "Cat video".toList :=
  have h := fetchThumbnail_ok examplePage exampleUrl earlierReplyLands catVideo (by decide) rfl
  ⟨h.1, h.2.1, h.2.2.1⟩

/-! ## The empty-URL guard of the three actions -/

/-- C5: for each of the three actions of script.js (video download submit, MP3
button click, preview button click) and every URL field value that is empty
after trimming, the action shows the status `Paste a TikTok URL first` in the
error style, has no effect at all, so issues zero network calls and opens no
new tab, and completes normally. -/
theorem runAction_empty_url (a : Action) (p : Page) (reply : FetchReply)
    (h : trim p.urlInput = []) :
    (runAction a p reply).page.messageBox.textContent = "Paste a TikTok URL first".toList ∧
    (runAction a p reply).page.messageBox.background = "rgba(255,0,0,0.15)".toList ∧
    (runAction a p reply).page.messageBox.isHidden = false ∧
    (runAction a p reply).effects.filter Effect.isNetwork = [] ∧
    (runAction a p reply).effects.filter Effect.isOpenTab = [] ∧
    (runAction a p reply).settled = .fulfilled := by
  have hrun : runAction a p reply
      = ⟨setMessage p "Paste a TikTok URL first".toList true, [], .fulfilled⟩ := by
    cases a <;>
      simp [runAction, downloadSubmit, downloadMp3Click, previewClick, h, truthy]
  rw [hrun]
  refine ⟨setMessage_textContent _ _ _, ?_, setMessage_visible _ _ _, rfl, rfl, rfl⟩
  rw [setMessage_background]; rfl

theorem runAction_empty_url_witness :
    (runAction .preview blankPage .rejected).page.messageBox.textContent
        = "Paste a TikTok URL first".toList ∧
    (runAction .mp3 blankPage (.response (okResponse none))).effects.filter Effect.isNetwork = [] :=
  ⟨(runAction_empty_url .preview blankPage .rejected (by decide)).1,
   (runAction_empty_url .mp3 blankPage (.response (okResponse none)) (by decide)).2.2.2.1⟩

/-! ## Failures of the network calls -/

/-- C6 (the code departs from it): the submit handler of stories.js awaits
`fetch` and `response.json()` outside any guarded scope. When either fails the
promise of the handler rejects, nothing is logged, and the status keeps the
text `Fetching story...` with its classes untouched: no error status is shown. -/
theorem storiesSubmit_failure_escapes (el : Element) (message : JSString) :
    (storiesSubmit el (.failed message)).settled = .rejected ∧
    (storiesSubmit el (.failed message)).page.textContent = "Fetching story...".toList ∧
    (storiesSubmit el (.failed message)).page.classList = el.classList ∧
    (storiesSubmit el (.failed message)).effects
      = [.fetch "/download_story".toList .wholeForm] := by
  simp [storiesSubmit]

/-- A failure of the metadata request is handled inside fetchThumbnail: the
handler logs it, shows the generic error status and completes normally. -/
theorem fetchThumbnail_failure_handled (p : Page) (url message : JSString)
    (during : Page → Page) (hlen : 6 ≤ jsLength url) :
    (fetchThumbnail p url during (.failed message)).settled = .fulfilled ∧
    (fetchThumbnail p url during (.failed message)).page.messageBox.textContent
      = "Could not fetch preview".toList ∧
    (fetchThumbnail p url during (.failed message)).page.messageBox.background
      = errorBackground := by
  rw [fetchThumbnail_long p url during _ hlen]
  simp only [fetchThumbnailResume]
  exact ⟨trivial, setMessage_textContent _ _ _, by rw [setMessage_background]; rfl⟩

/-- The promise of fetchThumbnail never rejects. -/
theorem fetchThumbnail_fulfilled (p : Page) (url : JSString) (during : Page → Page)
    (reply : JsonReply PreviewMetadata) :
    (fetchThumbnail p url during reply).settled = .fulfilled := by
  by_cases hlen : 6 ≤ jsLength url
  · rw [fetchThumbnail_long p url during _ hlen]
    simp only [fetchThumbnailResume]
    split
    · rfl
    · split <;> rfl
  · simp only [fetchThumbnail, fetchThumbnailStart_short p url (by omega)]

/-- The promise of the video-download handler never rejects, and every failure
of its network call or of reading the response ends in an error status. -/
theorem downloadSubmit_failure_handled (p : Page) (reply : FetchReply)
    (hfail : reply = .rejected ∨
      ∃ res, reply = .response res ∧
        ((res.ok = false ∧ res.text = none) ∨ (res.ok = true ∧ res.blob = false))) :
    (downloadSubmit p reply).settled = .fulfilled ∧
    (downloadSubmit p reply).page.messageBox.background = errorBackground := by
  have hbg : ∀ (q : Page) (msg : JSString),
      (setMessage q msg true).messageBox.background = errorBackground := by
    intro q msg
    rw [setMessage_background]; rfl
  by_cases hu : truthy (trim p.urlInput) = true
  · rcases hfail with h | ⟨res, h, ⟨h1, h2⟩ | ⟨h1, h2⟩⟩
    · subst h
      simp [downloadSubmit, hu, hbg]
    · subst h
      simp [downloadSubmit, hu, h1, h2, hbg]
    · subst h
      simp [downloadSubmit, hu, h1, h2, hbg]
  · simp [downloadSubmit, hu, hbg]

/-- The promise of the MP3 handler never rejects, and every failure of its
network call or of reading the response ends in an error status. -/
theorem downloadMp3Click_failure_handled (p : Page) (reply : FetchReply)
    (hfail : reply = .rejected ∨
      ∃ res, reply = .response res ∧
        ((res.ok = false ∧ res.text = none) ∨ (res.ok = true ∧ res.blob = false))) :
    (downloadMp3Click p reply).settled = .fulfilled ∧
    (downloadMp3Click p reply).page.messageBox.background = errorBackground := by
  have hbg : ∀ (q : Page) (msg : JSString),
      (setMessage q msg true).messageBox.background = errorBackground := by
    intro q msg
    rw [setMessage_background]; rfl
  by_cases hu : truthy (trim p.urlInput) = true
  · rcases hfail with h | ⟨res, h, ⟨h1, h2⟩ | ⟨h1, h2⟩⟩
    · subst h
      simp [downloadMp3Click, hu, hbg]
    · subst h
      simp [downloadMp3Click, hu, h1, h2, hbg]
    · subst h
      simp [downloadMp3Click, hu, h1, h2, hbg]
  · simp [downloadMp3Click, hu, hbg]

/-- A failure of either request of mp.js is handled inside the handler: the
spinner is taken down and the error is shown in the message box. -/
theorem mpSubmit_failure_handled (p : MpPage) (message : JSString)
    (metaData : PreviewMetadata) (mp3Reply : JsonReply Mp3Data)
    (hurl : trim p.urlInput ≠ []) (hok : metaData.ok = true) :
    (mpSubmit p (.failed message) mp3Reply).settled = .fulfilled ∧
    (mpSubmit p (.failed message) mp3Reply).page.messageBox.textContent
      = "Error: ".toList ++ message ∧
    (mpSubmit p (.value metaData) (.failed message)).settled = .fulfilled ∧
    (mpSubmit p (.value metaData) (.failed message)).page.messageBox.textContent
      = "Error: ".toList ++ message := by
  have ht : truthy (trim p.urlInput) = true := by
    cases h : trim p.urlInput with
    | nil => exact absurd h hurl
    | cons a l => rfl
  simp [mpSubmit, ht, hok]

/-- A rejection of the mail call is handled by the rejection callback: the
error status is shown with the class `note error`. -/
theorem mailSubmit_failure_handled (status : Element) :
    (mailSubmit status .rejected).settled = .fulfilled ∧
    (mailSubmit status .rejected).page.textContent = "Oops! Something went wrong.".toList ∧
    (mailSubmit status .rejected).page.classList = ["note".toList, "error".toList] := by
  simp [mailSubmit]

/-! ## One status at a time -/

/-- C9 (the code departs from it): in stories.js an error update followed by a
success update leaves the status with the latest text but with both classes
`error` and `success`, and the `Fetching story...` update in between keeps the
class `error` of the earlier one; in mail.js the `Sending...` update of a new
submission keeps the class `note error` of the earlier update. -/
theorem storiesSubmits_classes_stack :
    (storiesSubmits {} [storyError, storySuccess]).textContent = "✅ saved".toList ∧
    (storiesSubmits {} [storyError, storySuccess]).classList
      = ["error".toList, "success".toList] ∧
    (storiesSubmit (storiesSubmits {} [storyError]) (.failed [])).page.textContent
      = "Fetching story...".toList ∧
    (storiesSubmit (storiesSubmits {} [storyError]) (.failed [])).page.classList
      = ["error".toList] ∧
    (mailSending (mailSubmit {} .rejected).page).textContent = "Sending...".toList ∧
    (mailSending (mailSubmit {} .rejected).page).classList
      = ["note".toList, "error".toList] := by
  decide

/-! ## Debounce -/

theorem callAt_idle {α : Type} (delay : Nat) (s : Debounced α) (ev : Nat × α)
    (h : s.timers = []) :
    callAt delay s ev
      = ⟨some s.nextId, [⟨s.nextId, ev.1 + delay, ev.2⟩], s.nextId + 1, s.calls⟩ := by
  obtain ⟨t, timers, nextId, calls⟩ := s
  simp only at h
  subst h
  cases t <;> simp [callAt, debounce, fireDue, clearTimeout, sortByDue]

theorem callAt_pending {α : Type} (delay : Nat) (s : Debounced α) (ev : Nat × α)
    (i d : Nat) (a : α) (ht : s.t = some i) (h : s.timers = [⟨i, d, a⟩]) (hlt : ev.1 < d) :
    callAt delay s ev
      = ⟨some s.nextId, [⟨s.nextId, ev.1 + delay, ev.2⟩], s.nextId + 1, s.calls⟩ := by
  obtain ⟨t, timers, nextId, calls⟩ := s
  simp only at h ht
  subst h ht
  have hd : ¬ d ≤ ev.1 := by omega
  simp [callAt, debounce, fireDue, clearTimeout, sortByDue, hd]

theorem fireDue_pending {α : Type} (s : Debounced α) (now i d : Nat) (a : α)
    (h : s.timers = [⟨i, d, a⟩]) :
    (fireDue s now).calls = s.calls ++ (if d ≤ now then [(d, a)] else []) ∧
    (d ≤ now → (fireDue s now).timers = []) := by
  obtain ⟨t, timers, nextId, calls⟩ := s
  simp only at h
  subst h
  by_cases hd : d ≤ now <;> simp [fireDue, sortByDue, insertByDue, hd]

/-- After a burst whose calls follow each other by less than `delay`, started
with one timeout pending that the first call of the rest cancels, exactly one
timeout is pending: the one of the last call; `fn` has not been invoked. -/
theorem foldl_callAt_pending {α : Type} (delay : Nat) (rest : List (Nat × α)) :
    ∀ (s : Debounced α) (ev : Nat × α) (i : Nat),
      s.t = some i → s.timers = [⟨i, ev.1 + delay, ev.2⟩] →
      List.Chain (fun x y => x.1 ≤ y.1 ∧ y.1 < x.1 + delay) ev rest →
      ∃ j, (rest.foldl (callAt delay) s).t = some j ∧
        (rest.foldl (callAt delay) s).timers
          = [⟨j, ((ev :: rest).getLast (List.cons_ne_nil ev rest)).1 + delay,
              ((ev :: rest).getLast (List.cons_ne_nil ev rest)).2⟩] ∧
        (rest.foldl (callAt delay) s).calls = s.calls := by
  induction rest with
  | nil =>
    intro s ev i ht htm _
    exact ⟨i, ht, by simpa using htm, rfl⟩
  | cons ev' rest ih =>
    intro s ev i ht htm hch
    rw [List.chain_cons] at hch
    obtain ⟨hgap, hch'⟩ := hch
    have hstep := callAt_pending delay s ev' i (ev.1 + delay) ev.2 ht htm hgap.2
    obtain ⟨j, h1, h2, h3⟩ := ih (callAt delay s ev') ev' s.nextId
      (by rw [hstep]) (by rw [hstep]) hch'
    refine ⟨j, ?_, ?_, ?_⟩
    · simpa [List.foldl_cons] using h1
    · rw [List.foldl_cons, h2, List.getLast_cons (List.cons_ne_nil ev' rest)]
    · rw [List.foldl_cons, h3, hstep]

/-- A burst of calls of a debounced function, each following the previous one
by less than `delay`, started with no timeout pending and followed by quiet
until `horizon`: `fn` is invoked exactly once more, at the time of the last call
plus `delay`, with the argument of the last call, once the clock has reached
that time, and not at all before. -/
theorem runCalls_burst {α : Type} (delay : Nat) (st : Debounced α) (burst : List (Nat × α))
    (hne : burst ≠ []) (hidle : st.timers = [])
    (hgaps : burst.Chain' (fun x y => x.1 ≤ y.1 ∧ y.1 < x.1 + delay)) (horizon : Nat) :
    (runCalls delay st burst horizon).calls
      = st.calls ++ (if (burst.getLast hne).1 + delay ≤ horizon
          then [((burst.getLast hne).1 + delay, (burst.getLast hne).2)] else []) ∧
    ((burst.getLast hne).1 + delay ≤ horizon → (runCalls delay st burst horizon).timers = []) := by
  cases burst with
  | nil => exact absurd rfl hne
  | cons ev rest =>
    have hfirst := callAt_idle delay st ev hidle
    obtain ⟨j, _, h2, h3⟩ := foldl_callAt_pending delay rest (callAt delay st ev) ev st.nextId
      (by rw [hfirst]) (by rw [hfirst]) hgaps
    have hfire := fireDue_pending (rest.foldl (callAt delay) (callAt delay st ev)) horizon j _ _ h2
    simp only [runCalls, List.foldl_cons]
    refine ⟨?_, hfire.2⟩
    rw [hfire.1, h3, hfirst]

theorem previewRequests_single (p : Page) (during : Page → Page)
    (reply : JsonReply PreviewMetadata) (time : Nat) (val : JSString) :
    previewRequests p during reply [(time, val)]
      = if 6 ≤ jsLength val then [(time, .fetch "/thumbnail".toList (.jsonUrl val))] else [] := by
  by_cases h : 6 ≤ jsLength val
  · cases reply with
    | failed m =>
      simp [previewRequests, fetchThumbnail_long p val during _ h, fetchThumbnailResume, h,
        Effect.isNetwork]
    | value data =>
      cases hok : data.ok <;>
        simp [previewRequests, fetchThumbnail_long p val during _ h, fetchThumbnailResume, h,
          hok, Effect.isNetwork]
  · have hl : jsLength val < 6 := by omega
    simp [previewRequests, fetchThumbnail, fetchThumbnailStart_short p val hl, h]

/-- C3: for the function returned by `debounce(fn, 700)` as wired to the URL
input, every non-empty burst of input events at times t1 <= ... <= tn, each
following the previous one by less than 700 ms, started with no timeout pending
and followed by quiet until a time at or after tn + 700, makes `fn` run exactly
once, at time tn + 700, with the trimmed value of the last event, and not at all
before that time; it issues exactly one preview request, at tn + 700 for that
value, when the value has length at least 6, and none when it is shorter. -/
theorem debouncedFetch_burst (st : Debounced JSString) (burst : List (Nat × JSString))
    (hne : burst ≠ []) (hidle : st.timers = [])
    (hgaps : burst.Chain' (fun x y => x.1 ≤ y.1 ∧ y.1 < x.1 + 700))
    (horizon : Nat) (hquiet : (burst.getLast hne).1 + 700 ≤ horizon)
    (p : Page) (during : Page → Page) (reply : JsonReply PreviewMetadata) :
    (runInputs st burst horizon).calls
      = st.calls ++ [((burst.getLast hne).1 + 700, trim (burst.getLast hne).2)] ∧
    (runInputs st burst horizon).timers = [] ∧
    (∀ T, T < (burst.getLast hne).1 + 700 → (runInputs st burst T).calls = st.calls) ∧
    (6 ≤ jsLength (trim (burst.getLast hne).2) →
      previewRequests p during reply ((runInputs st burst horizon).calls.drop st.calls.length)
        = [((burst.getLast hne).1 + 700,
            .fetch "/thumbnail".toList (.jsonUrl (trim (burst.getLast hne).2)))]) ∧
    (jsLength (trim (burst.getLast hne).2) < 6 →
      previewRequests p during reply ((runInputs st burst horizon).calls.drop st.calls.length) = []) := by
  have hne' : burst.map onInput ≠ [] := by simpa using hne
  have hlast : (burst.map onInput).getLast hne' = onInput (burst.getLast hne) := by
    simp [List.getLast_map]
  have hgaps' : (burst.map onInput).Chain' (fun x y => x.1 ≤ y.1 ∧ y.1 < x.1 + previewDelay) := by
    rw [List.chain'_map]
    exact hgaps
  have hrun := fun T => runCalls_burst previewDelay st (burst.map onInput) hne' hidle hgaps' T
  simp only [hlast, onInput, previewDelay] at hrun
  have hcalls : (runInputs st burst horizon).calls
      = st.calls ++ [((burst.getLast hne).1 + 700, trim (burst.getLast hne).2)] := by
    have := (hrun horizon).1
    rw [if_pos hquiet] at this
    exact this
  refine ⟨hcalls, (hrun horizon).2 hquiet, ?_, ?_, ?_⟩
  · intro T hT
    have := (hrun T).1
    rw [if_neg (by omega), List.append_nil] at this
    exact this
  · intro h6
    rw [hcalls, List.drop_left, previewRequests_single, if_pos h6]
  · intro h6
    rw [hcalls, List.drop_left, previewRequests_single, if_neg (by omega)]

theorem debouncedFetch_burst_witness :
    (runInputs (Debounced.fresh JSString) exampleBurst 1000).calls
      = [(800, "https://vt.tiktok.com/ZS123/".toList)] ∧
    previewRequests examplePage id (.value catVideo)
        ((runInputs (Debounced.fresh JSString) exampleBurst 1000).calls.drop 0)
      = [(800, .fetch "/thumbnail".toList (.jsonUrl "https://vt.tiktok.com/ZS123/".toList))] :=
  have h := debouncedFetch_burst (Debounced.fresh JSString) exampleBurst (by decide) rfl
    (by simp [exampleBurst]) 1000 (by decide) examplePage id (.value catVideo)
  ⟨h.1, h.2.2.2.1 (by decide)⟩

end TTDown
